import Mathlib

/-!
Shallow embedding of the pynetauto automation layer (src/netauto) for
verification of its specification.

The embedding models, faithfully to the Python source:
  * `condition.py`: the wrapper classes over the oracle's condition objects
    (`PropertyCondition`, `AndCondition`, `OrCondition`, `Condition`), the
    operator combinators, and the keyword-argument property resolution in
    `Condition.__new__`;
  * `element.py`: `Element.__bool__`, `Element.wait_unavailable`,
    `Element.find_element`, `Element.find_elements`, and the
    `PatternAvailable` shortcut pass over `Element.PROPERTIES`;
  * the relevant host-language semantics: Python identifier strings are
    `List Char`, Python dicts are insertion-ordered association lists,
    Python `float(str)` parsing, and evaluation of parameter defaults at
    function-definition time.

The external oracle (System.Windows.Automation) is abstracted as explicit
function parameters; clock readings (`datetime.now()`) are naturals that
advance by a caller-supplied per-poll cost; possibly diverging `while`
loops are given fuel and return `none` when it runs out.
-/

namespace Netauto

/-- A Python identifier / string, modelled as its character sequence. -/
abbrev PName := List Char

/-- Lookup in a Python dict modelled as an insertion-ordered association
list: the value of the first (unique, for a genuine dict) matching key. -/
def dictLookup {β : Type} : List (PName × β) → PName → Option β
  | [], _ => none
  | (k', v) :: rest, k => if k' = k then some v else dictLookup rest k

/-- Python dict assignment `d[k] = v`: replace the value at an existing key
in place, else append the new pair at the end (insertion order). -/
def dictInsert {β : Type} : List (PName × β) → PName → β → List (PName × β)
  | [], k, v => [(k, v)]
  | (k', v') :: rest, k, v =>
      if k' = k then (k, v) :: rest else (k', v') :: dictInsert rest k v

/-! ## Condition instances (the oracle-side objects built by condition.py)

`System.Windows.Automation` condition objects are opaque trees: the
`TrueCondition` / `FalseCondition` singletons, `PropertyCondition(prop, val)`
leaves, and `AndCondition` / `OrCondition` nodes holding the exact list of
sub-conditions passed to their constructors (the .NET constructors never
simplify or flatten their argument lists). Property handles are `Nat`,
property values `Int`. -/

inductive CondInst : Type where
  | trueC : CondInst
  | falseC : CondInst
  | propEq : Nat → Int → CondInst
  | andC : List CondInst → CondInst
  | orC : List CondInst → CondInst

/-- A condition wrapper object: every wrapper class in condition.py holds the
underlying oracle condition in its `instance` attribute (`inst` here). -/
structure CondWrapper : Type where
  inst : CondInst

/-- `Condition.__and__` (and identically `PropertyCondition.__and__`,
`AndCondition.__and__`, `OrCondition.__and__`):
`AndCondition([self.instance, getattr(other, 'instance', other)])`. -/
def condAnd (a b : CondWrapper) : CondWrapper :=
  ⟨.andC [a.inst, b.inst]⟩

/-- `Condition.__or__` (and identically on the other wrapper classes):
`OrCondition([self.instance, getattr(other, 'instance', other)])`. -/
def condOr (a b : CondWrapper) : CondWrapper :=
  ⟨.orC [a.inst, b.inst]⟩

/-- `Condition.true`, the wrapped `Condition.TrueCondition` singleton. -/
def condTrue : CondWrapper := ⟨.trueC⟩

/-- `Condition.false`, the wrapped `Condition.FalseCondition` singleton. -/
def condFalse : CondWrapper := ⟨.falseC⟩

mutual

/-- Evaluation semantics of an oracle condition against an element whose
property values are given by `env`: a `PropertyCondition` holds when the
property's current value equals the condition's value, `AndCondition` when
all sub-conditions hold, `OrCondition` when some sub-condition holds. -/
def CondInst.eval (env : Nat → Int) : CondInst → Bool
  | .trueC => true
  | .falseC => false
  | .propEq p v => env p == v
  | .andC ts => evalAll env ts
  | .orC ts => evalAny env ts

/-- All conditions in the list hold. -/
def evalAll (env : Nat → Int) : List CondInst → Bool
  | [] => true
  | t :: ts => t.eval env && evalAll env ts

/-- Some condition in the list holds. -/
def evalAny (env : Nat → Int) : List CondInst → Bool
  | [] => false
  | t :: ts => t.eval env || evalAny env ts

end

/-- The term list of an `AndCondition` node, `none` for any other shape.
Used to state what "a single non-nested And over given terms" means. -/
def andTerms : CondInst → Option (List CondInst)
  | .andC ts => some ts
  | _ => none

/-! ## The property registry and keyword-argument resolution

`Element.PROPERTIES` is a dict mapping each pattern-group name to a dict of
C#-style property names to property handles (handles are `Nat` here). Python
dicts iterate in insertion order, so both levels are association lists. -/

/-- One pattern group's properties: C# property name to property handle. -/
abbrev PropDict := List (PName × Nat)

/-- `Element.PROPERTIES`: pattern-group name to that group's properties. -/
abbrev Registry := List (PName × PropDict)

/-- Models `python_name_to_csharp_name` from the external `expanded_clr`
dependency (not part of this repository) on snake_case identifiers: split on
single underscores and upper-case the first character of each chunk, e.g.
`is_read_only ↦ IsReadOnly`. -/
def python_name_to_csharp_name (s : PName) : PName :=
  ((splitUnderscore s).map capitalizeChunk).flatten
where
  /-- Split at every underscore, like Python `s.split('_')`. -/
  splitUnderscore : PName → List PName
    | [] => [[]]
    | '_' :: rest => [] :: splitUnderscore rest
    | c :: rest =>
        match splitUnderscore rest with
        | [] => [[c]]
        | g :: gs => (c :: g) :: gs
  /-- Upper-case a chunk's first character. -/
  capitalizeChunk : PName → PName
    | [] => []
    | c :: rest => c.toUpper :: rest

/-- Python `prop_name.split('__', 1)`: split at the first occurrence of a
double underscore, `none` when `'__' not in prop_name`. -/
def splitDunder : PName → Option (PName × PName)
  | [] => none
  | '_' :: '_' :: rest => some ([], rest)
  | c :: rest => (splitDunder rest).map (fun p => (c :: p.1, p.2))

/-- The plain-name resolution loop of `Condition.__new__` for a keyword with
no group separator, exactly as written in the source:

```
for properties in element.Element.PROPERTIES.values():
    if csharp_prop_name in properties:
        prop = properties[csharp_prop_name]
```

the loop has no `break`, so a later group's match overwrites an earlier
group's. -/
def resolvePlain (reg : Registry) (csharp_prop_name : PName) : Option Nat :=
  reg.foldl
    (fun prop entry =>
      match dictLookup entry.2 csharp_prop_name with
      | some p => some p
      | none => prop)
    none

/-- The resolution the spec (and the source's own docstring, "we will use the
first ID we find") describes for a plain keyword name: scan the groups in
registry iteration order and take the first group's match. Stated from the
spec's words, for comparison with `resolvePlain`. -/
def resolveFirstMatch : Registry → PName → Option Nat
  | [], _ => none
  | entry :: rest, n =>
      match dictLookup entry.2 n with
      | some p => some p
      | none => resolveFirstMatch rest n

/-- A Python exception as raised by `Condition.__new__`: `ValueError(msg)`
carries its message, `KeyError(key)` carries the missing dict key. -/
inductive PyErr : Type where
  | valueError : PName → PyErr
  | keyError : PName → PyErr
deriving DecidableEq

/-- The message text `'Failed to find property for '` of the `ValueError`
raised by `Condition.__new__`, to be followed by the keyword name. -/
def failedToFindMsg : PName := "Failed to find property for ".data

/-- Resolution of one keyword argument name in `Condition.__new__`
(condition.py lines 70-83): with a `pattern__property` separator, convert
both halves and subscript the named group's dict
(`PROPERTIES.get(pattern_name, {})[csharp_prop_name]`, a `KeyError` naming
the converted property name when absent); otherwise convert the whole name
and run the no-break scan over all groups, raising
`ValueError('Failed to find property for ' + prop_name)` when no group
matched. -/
def resolveKwarg (reg : Registry) (prop_name : PName) : Except PyErr Nat :=
  match splitDunder prop_name with
  | some (pattern_name, real_prop_name) =>
      let patternName := python_name_to_csharp_name pattern_name
      let csharpPropName := python_name_to_csharp_name real_prop_name
      match dictLookup ((dictLookup reg patternName).getD []) csharpPropName with
      | some p => .ok p
      | none => .error (.keyError csharpPropName)
  | none =>
      let csharpPropName := python_name_to_csharp_name prop_name
      match resolvePlain reg csharpPropName with
      | some p => .ok p
      | none => .error (.valueError (failedToFindMsg ++ prop_name))

/-- The keyword loop of `Condition.__new__`: each keyword `name=value`
becomes a `PropertyCondition(prop, value)` leaf appended to the positional
arguments; the first unresolvable keyword raises, abandoning construction. -/
def kwargsToLeaves (reg : Registry) : List (PName × Int) → Except PyErr (List CondInst)
  | [] => .ok []
  | (n, v) :: rest =>
      match resolveKwarg reg n with
      | .error e => .error e
      | .ok p => (kwargsToLeaves reg rest).map (fun ls => .propEq p v :: ls)

/-! ## The PatternAvailable shortcut pass (element.py lines 298-302) -/

/-- The 16-character suffix `'PatternAvailable'` tested by the shortcut
pass. -/
def paSuffix : PName := "PatternAvailable".data

/-- The shortcut pass over the universal base group
(`AutomationElementIdentifiers`): iterate over a snapshot of the group's
items and, for each name ending in `PatternAvailable`, assign the same
handle under the name with that 16-character suffix stripped
(`prop_name[:-16]`):

```
for prop_name, prop in list(...items()):
    if prop_name.endswith('PatternAvailable'):
        PROPERTIES['AutomationElementIdentifiers'][prop_name[:-16]] = prop
```

One iteration is `shortcutStep`, the whole pass folds it over the
snapshot. -/
def shortcutStep (d : PropDict) (np : PName × Nat) : PropDict :=
  if paSuffix.isSuffixOf np.1 then
    dictInsert d (np.1.take (np.1.length - 16)) np.2
  else d

/-- The fold of `shortcutStep` over the snapshot of the base group's items,
mutating the base group itself (element.py lines 300-302). -/
def shortcutPass (base : PropDict) : PropDict :=
  base.foldl shortcutStep base

/-! ## Element liveness (element.py `Element.__bool__`) -/

/-- The outcome of one oracle call that may raise
`ElementNotAvailableException`: either the fetched value or that exception.
Exceptions other than `ElementNotAvailableException` do not arise from the
modelled fetches. -/
inductive FetchOutcome (α : Type) : Type where
  | ok : α → FetchOutcome α
  | elementNotAvailable : FetchOutcome α

/-- Python `bool(i)` on an integer: false exactly at zero. -/
def pyBoolInt (i : Int) : Bool := i != 0

/-- `Element.__bool__`: `bool(self.process_id)` inside a
`try/except ElementNotAvailableException: return False`. The argument is the
outcome of the `process_id` fetch from the oracle. -/
def elementBool (processIdFetch : FetchOutcome Int) : Bool :=
  match processIdFetch with
  | .ok pid => pyBoolInt pid
  | .elementNotAvailable => false

/-! ## Timeout arguments and their conversion to a deadline

Clock readings are naturals. `dt.datetime.max` is modelled by a caller-fixed
horizon `tmax` that every reading stays under. -/

/-- A Python `timeout` argument: the `float('inf')` sentinel, a plain
number of seconds (`int`/`float`), a `timedelta`, or an absolute
`datetime`. -/
inductive PyTimeout : Type where
  | infSentinel : PyTimeout
  | seconds : Nat → PyTimeout
  | delta : Nat → PyTimeout
  | absolute : Nat → PyTimeout

/-- The timeout-conversion prologue shared by `wait_unavailable`,
`find_element` and `find_elements`: `float('inf')` becomes
`datetime.max` (the horizon `tmax`), a `timedelta` or a number of seconds is
added to `datetime.now()` (the reading `now`), and a `datetime` passes
through unchanged. -/
def convertTimeout (tmax now : Nat) : PyTimeout → Nat
  | .infSentinel => tmax
  | .seconds s => now + s
  | .delta d => d + now
  | .absolute t => t

/-! ## `Element.wait_unavailable` (element.py lines 126-162)

The loop body's oracle calls for iteration `k` are the `process_id` fetch
and (only when `include_offscreen` is true, by Python `and` short-circuit)
the `is_offscreen` fetch; an `ElementNotAvailableException` from either is
caught by the surrounding `try` and yields `True`. Successive
`datetime.now()` readings advance by the caller-supplied `cost k` of
iteration `k`'s oracle calls. The loop can run forever (a live, on-screen
element and a distant deadline), so it takes fuel and returns `none` when
the fuel runs out. -/

def waitUnavailableLoop (pidFetch : Nat → FetchOutcome Int)
    (offFetch : Nat → FetchOutcome Bool) (cost : Nat → Nat)
    (includeOffscreen : Bool) (deadline : Nat) :
    Nat → Nat → Nat → Option Bool
  | 0, _, _ => none
  | fuel + 1, now, k =>
      if now < deadline then
        match pidFetch k with
        | .elementNotAvailable => some true
        | .ok _ =>
            if includeOffscreen then
              match offFetch k with
              | .elementNotAvailable => some true
              | .ok true => some true
              | .ok false =>
                  waitUnavailableLoop pidFetch offFetch cost includeOffscreen
                    deadline fuel (now + cost k) (k + 1)
            else
              waitUnavailableLoop pidFetch offFetch cost includeOffscreen
                deadline fuel (now + cost k) (k + 1)
      else some false

/-- `Element.wait_unavailable` given a well-formed `timeout` argument:
convert the timeout to a deadline from the reading `t0`, then run the
polling loop. `some b` is a return of `b`; `none` means the fuel did not
cover the run. -/
def wait_unavailable (pidFetch : Nat → FetchOutcome Int)
    (offFetch : Nat → FetchOutcome Bool) (cost : Nat → Nat)
    (tmax t0 : Nat) (timeout : PyTimeout) (includeOffscreen : Bool)
    (fuel : Nat) : Option Bool :=
  waitUnavailableLoop pidFetch offFetch cost includeOffscreen
    (convertTimeout tmax t0 timeout) fuel t0 0

/-! ## `Element.find_element` (element.py lines 164-207)

`oracle k` is the `FindFirst` result of poll `k` (`none` = C# `null`);
`min_searches` is a Python `int` and may go negative, so it is `Int`. The
loop guard is `dt.datetime.now() < timeout or min_searches > 0`; on a hit
the element is returned at once, otherwise `min_searches -= 1` and the
loop re-polls. The pair returned with the result counts the polls made. -/

def findElementLoop (oracle : Nat → Option Nat) (cost : Nat → Nat)
    (deadline : Nat) :
    Nat → Nat → Int → Nat → Option (Option Nat × Nat)
  | 0, _, _, _ => none
  | fuel + 1, now, minSearches, k =>
      if now < deadline ∨ 0 < minSearches then
        match oracle k with
        | some e => some (some e, k + 1)
        | none => findElementLoop oracle cost deadline fuel (now + cost k)
            (minSearches - 1) (k + 1)
      else some (none, k)

/-- `Element.find_element`: convert the timeout (reading the clock at `t0`)
and run the polling loop. The result pairs the found element (or `None`)
with the number of `FindFirst` polls issued. -/
def find_element (oracle : Nat → Option Nat) (cost : Nat → Nat)
    (tmax t0 : Nat) (timeout : PyTimeout) (minSearches : Int)
    (fuel : Nat) : Option (Option Nat × Nat) :=
  findElementLoop oracle cost (convertTimeout tmax t0 timeout) fuel t0
    minSearches 0

/-! ## `Element.find_elements` (element.py lines 209-245)

`oracle k` is the element list `FindAll` returns on poll `k`. The guard is
written `dt.datetime.now() < timeout or min_searches > 0 and
len(elements) < min_count` in the source; Python parses `A or B and C` as
`A ∨ (B ∧ C)`, which is what this definition states. `elements` starts as
the empty list and each poll replaces it with the latest result set. -/

def findElementsLoop (oracle : Nat → List Nat) (cost : Nat → Nat)
    (deadline : Nat) (minCount : Int) :
    Nat → Nat → Int → List Nat → Nat → Option (List Nat × Nat)
  | 0, _, _, _, _ => none
  | fuel + 1, now, minSearches, elements, k =>
      if now < deadline ∨ (0 < minSearches ∧ (elements.length : Int) < minCount) then
        findElementsLoop oracle cost deadline minCount fuel (now + cost k)
          (minSearches - 1) (oracle k) (k + 1)
      else some (elements, k)

/-- `Element.find_elements`: convert the timeout (reading the clock at `t0`)
and run the polling loop from `elements = []`. The result pairs the last
result set with the number of `FindAll` polls issued. -/
def find_elements (oracle : Nat → List Nat) (cost : Nat → Nat)
    (tmax t0 : Nat) (timeout : PyTimeout) (minSearches minCount : Int)
    (fuel : Nat) : Option (List Nat × Nat) :=
  findElementsLoop oracle cost (convertTimeout tmax t0 timeout) minCount fuel
    t0 minSearches [] 0

/-! ## The `wait_unavailable` default timeout (element.py line 126)

The parameter list reads `timeout=float("int")`. Modelling this needs
Python's `float` constructor on strings and the fact that Python evaluates
a parameter's default-value expression once, when the `def` statement
executes (here: during the `Element` class body, at module import), not at
call time. -/

/-- A Python float as far as these claims need: the infinity produced by
`float('inf')` or a finite value. -/
inductive PyFloat : Type where
  | inf : PyFloat
  | finite : Nat → PyFloat
deriving DecidableEq

/-- Models Python `float(s)` on string arguments, to the extent exercised
here: `'inf'` parses to infinity, a nonempty digit string to its value, and
anything else — in particular `'int'` — raises
`ValueError('could not convert string to float: ...')`. -/
def pyFloatOfString (s : PName) : Except PyErr PyFloat :=
  if s = "inf".data then .ok .inf
  else if s ≠ [] ∧ s.all (·.isDigit) then
    .ok (.finite (s.foldl (fun n c => n * 10 + (c.toNat - '0'.toNat)) 0))
  else .error (.valueError ("could not convert string to float: ".data ++ s))

/-- A defined `wait_unavailable` method: it carries the (already evaluated)
default value of its `timeout` parameter. -/
structure WaitUnavailableMethod : Type where
  timeoutDefault : PyFloat

/-- Executing `def wait_unavailable(self, timeout=float("int"), ...)`:
Python evaluates the default expression `float("int")` at this moment; if
it raises, the `def` statement itself raises and no method is created. -/
def defineWaitUnavailable : Except PyErr WaitUnavailableMethod :=
  match pyFloatOfString "int".data with
  | .ok d => .ok ⟨d⟩
  | .error e => .error e

/-- Importing `netauto.element` executes the `Element` class body, whose
`def wait_unavailable` (line 126) runs before anything else can use the
class; an exception from evaluating its default propagates and the
module-level load fails. -/
def importElementModule : Except PyErr Unit :=
  match defineWaitUnavailable with
  | .ok _ => .ok ()
  | .error e => .error e

/-- A call `wait_unavailable(timeout=t, ...)` passing an explicit timeout:
it can only happen if the method exists, i.e. if its `def` succeeded; then
it runs the polling loop (which never consults the default). -/
def callWaitUnavailableExplicit (pidFetch : Nat → FetchOutcome Int)
    (offFetch : Nat → FetchOutcome Bool) (cost : Nat → Nat)
    (tmax t0 : Nat) (timeout : PyTimeout) (includeOffscreen : Bool)
    (fuel : Nat) : Except PyErr (Option Bool) :=
  match defineWaitUnavailable with
  | .error e => .error e
  | .ok _ =>
      .ok (wait_unavailable pidFetch offFetch cost tmax t0 timeout
        includeOffscreen fuel)

/-! ## Concrete inputs used by the theorems -/

/-- The registry of the source docstring's own ambiguity example: both the
`RangeValuePattern` group and the `ValuePattern` group (in that insertion
order) own a property named `IsReadOnly`, with distinct handles. -/
def duplicateReg : Registry :=
  [("RangeValuePattern".data, [("IsReadOnly".data, 1)]),
   ("ValuePattern".data, [("IsReadOnly".data, 2)])]

/-- The `FindAll` oracle of the C1 scenario: polls 1-4 (indices 0-3) return
a single element, every later poll returns three. -/
def oracleC1 : Nat → List Nat :=
  fun k => if k < 4 then [k] else [10 * k, 10 * k + 1, 10 * k + 2]

/-- The `ValueError` message text of evaluating `float("int")`. -/
def floatIntMsg : PName := "could not convert string to float: int".data

/-! ## C1 -/

/-- C1: the claim says `find_elements` stops polling as soon as the latest
result set reaches `min_count`, even if the deadline has not elapsed. It
does not: with `min_count = 3`, a deadline 10 time-units ahead, 1 time-unit
polls and an oracle giving 1 result on the first four polls and 3 results
from the fifth on, the loop keeps polling until the deadline — 10 polls,
returning the 10th poll's set — instead of stopping after the 5th poll,
because Python parses the guard `now < timeout or min_searches > 0 and
len(elements) < min_count` as `now < timeout ∨ (…)`. The second conjunct
checks that the 5th poll (index 4) already had 3 results. -/
theorem findElements_keeps_polling_after_minCount :
    find_elements oracleC1 (fun _ => 1) 1000 0 (.seconds 10) 1 3 20
      = some ([90, 91, 92], 10) ∧ (oracleC1 4).length = 3 := by
  constructor
  · rfl
  · rfl

/-! ## C2 -/

/-- C2: the claim (and the source's docstring "we will use the first ID we
find") says a plain keyword name colliding across groups resolves to the
first match in registry iteration order. The resolution loop in
`Condition.__new__` has no `break`, so the last match wins:
`is_read_only` resolves to handle 2 (the later `ValuePattern` group) while
the first match in iteration order is handle 1 (`RangeValuePattern`). -/
theorem resolvePlain_uses_last_match :
    resolveKwarg duplicateReg "is_read_only".data = .ok 2 ∧
    resolveFirstMatch duplicateReg "IsReadOnly".data = some 1 := by
  constructor
  · rfl
  · rfl

/-! ## C3 -/

/-- C3 counterexample: with the distinct leaves a = PropertyEquals(1, 10),
b = PropertyEquals(2, 20), c = PropertyEquals(3, 30), the object
`(a & b) & c` is an And of two terms (the nested `a & b`, then `c`), not a
single non-nested And over the three-term multiset {a, b, c}, and it is not
structurally the same object as `a & (b & c)`. -/
theorem and_flatten_counterexample :
    (andTerms (condAnd (condAnd ⟨.propEq 1 10⟩ ⟨.propEq 2 20⟩)
        ⟨.propEq 3 30⟩).inst).map List.length = some 2 ∧
    condAnd (condAnd ⟨.propEq 1 10⟩ ⟨.propEq 2 20⟩) ⟨.propEq 3 30⟩ ≠
      condAnd ⟨.propEq 1 10⟩ (condAnd ⟨.propEq 2 20⟩ ⟨.propEq 3 30⟩) := by
  refine ⟨rfl, ?_⟩
  simp [condAnd]

/-- C3 amended: the infix AND combinator does not flatten. `a & b` always
builds a fresh two-term And of the operands' underlying instances, so
`(a & b) & c` is `And [And [a, b], c]` and `a & (b & c)` is
`And [a, And [b, c]]` — nested one level per operator application — and the
two parse trees nevertheless evaluate identically on every element. -/
theorem condAnd_nests :
    ∀ (a b c : CondWrapper) (env : Nat → Int),
      condAnd (condAnd a b) c = ⟨.andC [.andC [a.inst, b.inst], c.inst]⟩ ∧
      condAnd a (condAnd b c) = ⟨.andC [a.inst, .andC [b.inst, c.inst]]⟩ ∧
      (condAnd (condAnd a b) c).inst.eval env
        = (condAnd a (condAnd b c)).inst.eval env := by
  intro a b c env
  refine ⟨rfl, rfl, ?_⟩
  simp [condAnd, CondInst.eval, evalAll, Bool.and_assoc]

/-! ## C4 -/

/-- C4 counterexample: at the leaf c = PropertyEquals(1, 10), none of the
four claimed identities holds structurally: `c & true` and `c | false` are
fresh two-term composites, not `c`; `c & false` is an And node, not the
False singleton; `c | true` is an Or node, not the True singleton. -/
theorem identities_counterexample :
    condAnd ⟨.propEq 1 10⟩ condTrue ≠ ⟨.propEq 1 10⟩ ∧
    condOr ⟨.propEq 1 10⟩ condFalse ≠ ⟨.propEq 1 10⟩ ∧
    condAnd ⟨.propEq 1 10⟩ condFalse ≠ condFalse ∧
    condOr ⟨.propEq 1 10⟩ condTrue ≠ condTrue := by
  refine ⟨?_, ?_, ?_, ?_⟩ <;> simp [condAnd, condOr, condTrue, condFalse]

/-- C4 amended: the combinators perform no algebraic reduction — `c & true`
is `And [c, True]`, `c | false` is `Or [c, False]`, `c & false` is
`And [c, False]` and `c | true` is `Or [c, True]` — but the claimed
identities do hold semantically: on every element, `c & true` and
`c | false` evaluate as `c`, `c & false` evaluates false and `c | true`
evaluates true. -/
theorem cond_identities_semantic_only :
    ∀ (c : CondWrapper) (env : Nat → Int),
      condAnd c condTrue = ⟨.andC [c.inst, .trueC]⟩ ∧
      condOr c condFalse = ⟨.orC [c.inst, .falseC]⟩ ∧
      condAnd c condFalse = ⟨.andC [c.inst, .falseC]⟩ ∧
      condOr c condTrue = ⟨.orC [c.inst, .trueC]⟩ ∧
      (condAnd c condTrue).inst.eval env = c.inst.eval env ∧
      (condOr c condFalse).inst.eval env = c.inst.eval env ∧
      (condAnd c condFalse).inst.eval env = false ∧
      (condOr c condTrue).inst.eval env = true := by
  intro c env
  refine ⟨rfl, rfl, rfl, rfl, ?_, ?_, ?_, ?_⟩ <;>
    simp [condAnd, condOr, condTrue, condFalse, CondInst.eval, evalAll, evalAny]

/-! ## C7 -/

/-- C7 counterexample: a `process_id` fetch that succeeds with the value 0
yields boolean False — `bool(self.process_id)` converts the fetched integer
— although the claim says the boolean is True whenever the fetch succeeds,
whatever value it returns. -/
theorem elementBool_zero_pid : elementBool (.ok 0) = false := rfl

/-- C7 amended: an element's boolean value is `bool(process_id)` — True
exactly when the process-id fetch succeeds with a nonzero value; it is
False both when the fetch raises the element-unavailable condition and when
the fetch succeeds with 0. The check itself is total: the
element-unavailable condition is caught, never propagated. -/
theorem elementBool_characterization :
    ∀ f : FetchOutcome Int,
      (elementBool f = true ↔ ∃ pid : Int, f = .ok pid ∧ pid ≠ 0) ∧
      elementBool FetchOutcome.elementNotAvailable = false := by
  intro f
  refine ⟨?_, rfl⟩
  cases f with
  | ok pid => simp [elementBool, pyBoolInt]
  | elementNotAvailable => simp [elementBool]

/-! ## C10 -/

/-- C10 counterexample: because Python evaluates a parameter's default
expression when the `def` executes, `float("int")` raises `ValueError`
while `wait_unavailable` is being defined — the module import fails and
even a call passing an explicit timeout (here 5 seconds, against a live
on-screen element) raises instead of succeeding, contradicting the claim
that calls passing an explicit timeout can succeed. -/
theorem explicit_timeout_call_fails :
    callWaitUnavailableExplicit (fun _ => .ok 1) (fun _ => .ok false)
        (fun _ => 1) 1000 0 (.seconds 5) true 10
      = .error (.valueError floatIntMsg) ∧
    importElementModule = .error (.valueError floatIntMsg) ∧
    pyFloatOfString "inf".data = .ok .inf := by
  refine ⟨rfl, rfl, rfl⟩

/-- C10 amended: the default value of `wait_unavailable`'s timeout parameter
is the expression `float("int")`, whose evaluation raises `ValueError`
rather than producing the unbounded sentinel `float("inf")`; since Python
evaluates default expressions at function-definition time, the `def` itself
(and with it the import of the module) raises, so no call to
`wait_unavailable` — whether it omits the timeout or passes one explicitly —
can ever occur, and the documented default-infinite wait can never run. -/
theorem waitUnavailable_default_fails_at_def_time :
    ∀ (pidFetch : Nat → FetchOutcome Int) (offFetch : Nat → FetchOutcome Bool)
      (cost : Nat → Nat) (tmax t0 : Nat) (timeout : PyTimeout)
      (includeOffscreen : Bool) (fuel : Nat),
      defineWaitUnavailable = .error (.valueError floatIntMsg) ∧
      importElementModule = .error (.valueError floatIntMsg) ∧
      callWaitUnavailableExplicit pidFetch offFetch cost tmax t0 timeout
          includeOffscreen fuel = .error (.valueError floatIntMsg) ∧
      pyFloatOfString "inf".data = .ok .inf := by
  intro pidFetch offFetch cost tmax t0 timeout includeOffscreen fuel
  exact ⟨rfl, rfl, rfl, rfl⟩

/-! ## C5 -/

/-- With an oracle that never matches and the deadline already reached, the
`find_element` loop makes exactly as many further polls as the (non-negative)
min-searches counter — one decrement per unsuccessful poll — and returns
`None`. -/
theorem findElementLoop_exhausts (oracle : Nat → Option Nat) (cost : Nat → Nat)
    (deadline : Nat) (ho : ∀ j, oracle j = none) :
    ∀ (m fuel now k : Nat), deadline ≤ now → m + 1 ≤ fuel →
      findElementLoop oracle cost deadline fuel now (m : Int) k
        = some (none, k + m) := by
  intro m
  induction m with
  | zero =>
      intro fuel now k hnow hfuel
      obtain ⟨f, rfl⟩ : ∃ f, fuel = f + 1 := ⟨fuel - 1, by omega⟩
      simp only [findElementLoop]
      rw [if_neg (by omega)]
      simp
  | succ n ih =>
      intro fuel now k hnow hfuel
      obtain ⟨f, rfl⟩ : ∃ f, fuel = f + 1 := ⟨fuel - 1, by omega⟩
      simp only [findElementLoop]
      rw [if_pos (by omega), ho k]
      have hcast : ((n + 1 : Nat) : Int) - 1 = (n : Int) := by push_cast; ring
      have hnow2 : deadline ≤ now + cost k := le_trans hnow (Nat.le_add_right _ _)
      rw [hcast, ih f (now + cost k) (k + 1) hnow2 (by omega)]
      have harith : k + 1 + n = k + (n + 1) := by omega
      rw [harith]

/-- C5: `find_element` polls while before the deadline or while the
min-searches counter is positive, decrementing the counter once per
unsuccessful poll; called with `timeout=0` and `min_searches=2` against an
oracle that never matches, it makes exactly 2 `FindFirst` polls and returns
`None`. -/
theorem findElement_timeout0_two_polls (oracle : Nat → Option Nat)
    (cost : Nat → Nat) (tmax t0 fuel : Nat)
    (ho : ∀ j, oracle j = none) (hfuel : 3 ≤ fuel) :
    find_element oracle cost tmax t0 (.seconds 0) 2 fuel = some (none, 2) := by
  have h := findElementLoop_exhausts oracle cost (t0 + 0) ho 2 fuel t0 0
    (by omega) (by omega)
  simpa [find_element, convertTimeout] using h

/-- C5 witness: at the concrete never-matching oracle, unit poll cost,
`t0 = 0`, horizon 1000 and fuel 3, the call returns `None` after exactly 2
polls. -/
theorem findElement_timeout0_two_polls_witness :
    find_element (fun _ => none) (fun _ => 1) 1000 0 (.seconds 0) 2 3
      = some (none, 2) :=
  findElement_timeout0_two_polls (fun _ => none) (fun _ => 1) 1000 0 3
    (fun _ => rfl) (by omega)

/-! ## C6 -/

/-- C6: on an element that is live (the `process_id` fetch succeeds) but
currently reported off-screen, `wait_unavailable` with
`include_offscreen=True` and any deadline still in the future (a positive
`timedelta`) returns `True` on the first iteration, counting the off-screen
element as unavailable immediately. -/
theorem waitUnavailable_offscreen_immediate (pidFetch : Nat → FetchOutcome Int)
    (offFetch : Nat → FetchOutcome Bool) (cost : Nat → Nat)
    (tmax t0 d fuel : Nat) (pid : Int)
    (hd : 0 < d) (hfuel : 0 < fuel)
    (hpid : pidFetch 0 = .ok pid) (hoff : offFetch 0 = .ok true) :
    wait_unavailable pidFetch offFetch cost tmax t0 (.delta d) true fuel
      = some true := by
  obtain ⟨f, rfl⟩ : ∃ f, fuel = f + 1 := ⟨fuel - 1, by omega⟩
  simp only [wait_unavailable, convertTimeout, waitUnavailableLoop]
  rw [if_pos (by omega), hpid, hoff]
  rfl

/-- C6 witness: a concrete live element (`process_id` 1) reported
off-screen on the first poll, with a 5-unit deadline, returns `True`. -/
theorem waitUnavailable_offscreen_immediate_witness :
    wait_unavailable (fun _ => .ok 1) (fun _ => .ok true) (fun _ => 1)
      1000 0 (.delta 5) true 1 = some true :=
  waitUnavailable_offscreen_immediate (fun _ => .ok 1) (fun _ => .ok true)
    (fun _ => 1) 1000 0 5 1 1 (by omega) (by omega) rfl rfl

/-! ## C8 -/

/-- Python dict assignment then lookup at the assigned key yields the
assigned value. -/
theorem dictLookup_dictInsert_self {β : Type} (d : List (PName × β))
    (k : PName) (v : β) : dictLookup (dictInsert d k v) k = some v := by
  induction d with
  | nil => simp [dictInsert, dictLookup]
  | cons kv rest ih =>
      obtain ⟨k', v'⟩ := kv
      by_cases h : k' = k
      · subst h; simp [dictInsert, dictLookup]
      · simp [dictInsert, dictLookup, h, ih]

/-- Python dict assignment leaves lookups at other keys unchanged. -/
theorem dictLookup_dictInsert_ne {β : Type} (d : List (PName × β))
    (k k' : PName) (v : β) (h : k ≠ k') :
    dictLookup (dictInsert d k v) k' = dictLookup d k' := by
  induction d with
  | nil => simp [dictInsert, dictLookup, h]
  | cons kv rest ih =>
      obtain ⟨k0, v0⟩ := kv
      by_cases h0 : k0 = k
      · subst h0; simp [dictInsert, dictLookup, h]
      · simp only [dictInsert, dictLookup, if_neg h0]
        by_cases h1 : k0 = k'
        · simp [dictLookup, h1]
        · simp [dictLookup, h1, ih]

/-- A name that ends in `PatternAvailable` and whose last 16 characters
strip to `X` is exactly `X ++ 'PatternAvailable'`. -/
theorem eq_of_suffix_take {n X : PName}
    (hs : paSuffix.isSuffixOf n = true)
    (ht : n.take (n.length - 16) = X) : n = X ++ paSuffix := by
  obtain ⟨t, rfl⟩ := List.isSuffixOf_iff_suffix.mp hs
  have hpa : paSuffix.length = 16 := rfl
  have hlen : (t ++ paSuffix).length - 16 = t.length := by
    simp only [List.length_append, hpa]
    omega
  rw [hlen, List.take_left] at ht
  rw [ht]

/-- Folding the shortcut step over snapshot items none of which is named
`X ++ 'PatternAvailable'` leaves the lookup of `X` unchanged. -/
theorem foldl_shortcutStep_preserve (X : PName) :
    ∀ (s : List (PName × Nat)) (d : PropDict),
      (∀ np ∈ s, np.1 ≠ X ++ paSuffix) →
      dictLookup (s.foldl shortcutStep d) X = dictLookup d X := by
  intro s
  induction s with
  | nil => intro d _; rfl
  | cons np rest ih =>
      intro d hne
      simp only [List.foldl_cons]
      rw [ih _ (fun q hq => hne q (List.mem_cons_of_mem _ hq))]
      unfold shortcutStep
      by_cases hs : paSuffix.isSuffixOf np.1
      · rw [if_pos hs]
        refine dictLookup_dictInsert_ne _ _ _ _ (fun hEq => ?_)
        exact hne np (List.mem_cons_self np rest) (eq_of_suffix_take hs hEq)
      · rw [if_neg hs]

/-- C8: after the shortcut pass, every universal-base-group property named
`X ++ 'PatternAvailable'` has an alias `X` in the same group resolving to
the same property handle (the base group, a Python dict, has no duplicate
names). -/
theorem shortcutPass_alias (base : PropDict) (X : PName) (p : Nat)
    (hmem : (X ++ paSuffix, p) ∈ base)
    (hnd : (base.map Prod.fst).Nodup) :
    dictLookup (shortcutPass base) X = some p := by
  obtain ⟨u, v, huv⟩ := List.append_of_mem hmem
  subst huv
  unfold shortcutPass
  rw [List.foldl_append, List.foldl_cons]
  have hv : ∀ np ∈ v, np.1 ≠ X ++ paSuffix := by
    intro np hnp hEq
    have hmap : (X ++ paSuffix) ∈ v.map Prod.fst := by
      exact hEq ▸ List.mem_map_of_mem Prod.fst hnp
    have hnd2 : ((X ++ paSuffix) :: v.map Prod.fst).Nodup := by
      rw [List.map_append, List.map_cons] at hnd
      exact hnd.of_append_right
    exact (List.nodup_cons.mp hnd2).1 hmap
  rw [foldl_shortcutStep_preserve X v _ hv]
  unfold shortcutStep
  rw [if_pos (List.isSuffixOf_iff_suffix.mpr ⟨X, rfl⟩)]
  have htake : (X ++ paSuffix).take ((X ++ paSuffix).length - 16) = X := by
    have hpa : paSuffix.length = 16 := rfl
    have hlen : (X ++ paSuffix).length - 16 = X.length := by
      simp only [List.length_append, hpa]
      omega
    rw [hlen, List.take_left]
  simp only [htake]
  exact dictLookup_dictInsert_self _ _ _

/-- C8 witness: a base group holding the single property
`IsWindowPatternAvailable ↦ 7` ends the pass with the alias
`IsWindow ↦ 7`. -/
theorem shortcutPass_alias_witness :
    dictLookup (shortcutPass [("IsWindow".data ++ paSuffix, 7)])
      "IsWindow".data = some 7 :=
  shortcutPass_alias [("IsWindow".data ++ paSuffix, 7)] "IsWindow".data 7
    (by decide) (by decide)

/-! ## C9 -/

/-- C9 counterexample: with an empty registry, constructing a Condition
with the keyword `range_value__is_read_only` fails with
`KeyError('IsReadOnly')` — the converted property component — which is
neither the name as given by the caller nor a string containing it, so the
error does not identify the offending name as given. -/
theorem group_kwarg_error_not_caller_name :
    resolveKwarg [] "range_value__is_read_only".data
      = .error (.keyError "IsReadOnly".data) ∧
    "IsReadOnly".data ≠ "range_value__is_read_only".data ∧
    ¬ List.IsInfix "range_value__is_read_only".data "IsReadOnly".data := by
  refine ⟨rfl, by decide, by decide⟩

/-- C9 amended: an unresolvable keyword always fails construction
immediately — the first failing keyword aborts the whole construction, so it
is never silently ignored — but the error identifies the caller's name only
for the plain form: a plain name raises
`ValueError('Failed to find property for ' + name)` with the name as given,
while a `group__property` name raises a `KeyError` naming only the converted
C# property component. -/
theorem kwarg_resolution_failure_shapes :
    ∀ (reg : Registry) (n pat rest : PName) (v : Int)
      (kws : List (PName × Int)),
      (splitDunder n = none →
        resolvePlain reg (python_name_to_csharp_name n) = none →
        resolveKwarg reg n = .error (.valueError (failedToFindMsg ++ n))) ∧
      (splitDunder n = some (pat, rest) →
        dictLookup ((dictLookup reg (python_name_to_csharp_name pat)).getD [])
            (python_name_to_csharp_name rest) = none →
        resolveKwarg reg n
          = .error (.keyError (python_name_to_csharp_name rest))) ∧
      (∀ e, resolveKwarg reg n = .error e →
        kwargsToLeaves reg ((n, v) :: kws) = .error e) := by
  intro reg n pat rest v kws
  refine ⟨?_, ?_, ?_⟩
  · intro h1 h2
    simp [resolveKwarg, h1, h2]
  · intro h1 h2
    simp [resolveKwarg, h1, h2]
  · intro e he
    simp [kwargsToLeaves, he]

end Netauto
